import Mathlib

/-!
# Animation scheduling and marker placement of `plot.cpp`

A shallow embedding of the class `Plot` of `src/plot.cpp`: the timer-driven
stepping of the five optimizers (`triggerAnimation`), the speed selector
(`setAnimationSpeed`), start/stop (`toggleAnimation`), the two restarts, and
the placement of the marker above the surface (`setBallPosition`).

Conventions of the embedding.
* `float`/`double` values are exact rationals (`ℚ`).
* `int` values are mathematical integers; the two places where the C++
  arithmetic is undefined (`%` by zero, `int` overflow of `timer_counter + 1`)
  and the out-of-range access of the surface array are explicit faults.
* An optimizer object is its state of an arbitrary type `σ` plus the three
  rendering items it owns; the methods of the optimizer class are the fields
  of `DescentOps σ`.
-/

namespace GDViz

/-! ## Constants (plot.cpp lines 10-15) -/

def sampleCountX : Nat := 50
def sampleCountZ : Nat := 50
def sampleMin : ℚ := -8
def sampleMax : ℚ := 8
def kBallYOffset : ℚ := 10
def kArrowOffset : ℚ := 2 / 5

/-- Grid spacing along x, set once in the constructor (line 27). -/
def stepX : ℚ := (sampleMax - sampleMin) / (((sampleCountX - 1 : Nat) : ℚ))

/-- Grid spacing along z, set once in the constructor (line 28). -/
def stepZ : ℚ := (sampleMax - sampleMin) / (((sampleCountZ - 1 : Nat) : ℚ))

/-- Largest value of a 32-bit `int`. -/
def INT_MAX : Int := 2147483647

/-! ## Data model -/

/-- A point `(x, z)` of the parameter plane. -/
structure Point where
  x : ℚ
  z : ℚ
deriving DecidableEq

/-- The three coordinates of a `QVector3D`. -/
structure QVector3D where
  x : ℚ
  y : ℚ
  z : ℚ
deriving DecidableEq

/-- A `QPoint`: for a surface selection, `x` is the row and `y` the column. -/
structure QPoint where
  x : Int
  y : Int
deriving DecidableEq

/-- The position and scaling of a `QCustom3DItem`, the two properties that the
animation writes (mesh, texture and rotation are set once at start-up). -/
structure QCustom3DItem where
  position : QVector3D
  scaling : QVector3D
deriving DecidableEq

/-- The part of a `QTimer` that `toggleAnimation` reads and writes. -/
structure QTimer where
  active : Bool
  interval : Int
deriving DecidableEq

/-- Modelled from the spec: the optimizer class of `gradient_descent.h`, which
is not among the sources. Its methods are parameters: `f` is the surface
function, `gradientStep` returns the new state together with the new
position, the queries `isConverged`, `getPosition`, `gradX`, `gradZ` only read
the state, and `defaultPoint` is the value of a default-constructed `Point`. -/
structure DescentOps (σ : Type) where
  f : ℚ → ℚ → ℚ
  isConverged : σ → Bool
  gradientStep : σ → σ × Point
  resetPosition : σ → σ
  setStartingPosition : ℚ → ℚ → σ → σ
  getPosition : σ → Point
  gradX : σ → ℚ
  gradZ : σ → ℚ
  defaultPoint : Point

/-- One entry of `all_descents`: the optimizer state and the marker and the two
arrows drawn for it. -/
structure GradientDescent (σ : Type) where
  state : σ
  ball : QCustom3DItem
  arrowX : QCustom3DItem
  arrowZ : QCustom3DItem

/-- The members of `Plot` used by the animation. `m_surfaceProxy` is the data
array of the surface, a list of rows of item positions. -/
structure Plot (σ : Type) where
  all_descents : List (GradientDescent σ)
  m_surfaceProxy : List (List QVector3D)
  m_timer : QTimer
  timer_counter : Int
  animation_slowdown : Int
  animation_speedup : Int

/-- The ways in which a call can fail to return. -/
inductive Fault where
  | divideByZero
  | signedOverflow
  | itemOutOfRange
deriving DecidableEq

/-- `QSurface3DSeries::invalidSelectionPosition()`. -/
def invalidSelectionPosition : QPoint := ⟨-1, -1⟩

/-! ## Operations -/

/-- `Plot::initializeSurface` (lines 98-115): the data array, row `i` holding
the samples at `z = min(sampleMax, i * stepZ + sampleMin)`. -/
def initializeSurface (f : ℚ → ℚ → ℚ) : List (List QVector3D) :=
  (List.range sampleCountZ).map fun (i : Nat) =>
    let z := min sampleMax ((i : ℚ) * stepZ + sampleMin)
    (List.range sampleCountX).map fun (j : Nat) =>
      let x := min sampleMax ((j : ℚ) * stepX + sampleMin)
      let y := f x z
      (⟨x, y, z⟩ : QVector3D)

/-- `QSurfaceDataProxy::itemAt(QPoint)`: the item in row `q.x`, column `q.y`;
there is none outside the array. -/
def itemAt (rows : List (List QVector3D)) (q : QPoint) : Option QVector3D :=
  if q.x < 0 ∨ q.y < 0 then none
  else rows[q.x.toNat]?.bind fun row => row[q.y.toNat]?

/-- The height at which `Plot::setBallPosition` draws the marker (lines
135-147). -/
def ballHeight (f : ℚ → ℚ → ℚ) (p : Point) : ℚ :=
  let cutoff : ℚ := 15
  let y := f p.x p.z
  if f (p.x + stepX) p.z - y > cutoff ∨ f p.x (p.z + stepZ) - y > cutoff then
    max (f (p.x + stepX) p.z) (f p.x (p.z + stepZ) - y) - cutoff - 10
  else
    y + kBallYOffset

/-- `Plot::setBallPosition` (lines 134-149). -/
def setBallPosition (f : ℚ → ℚ → ℚ) (ball : QCustom3DItem) (p : Point) :
    QCustom3DItem :=
  { ball with position := ⟨p.x, ballHeight f p, p.z⟩ }

/-- `Plot::setArrowGeometry` (lines 152-166). -/
def setArrowGeometry {σ : Type} (descent : GradientDescent σ) (grad : Point) :
    GradientDescent σ :=
  let ball_position := descent.ball.position
  { descent with
    arrowX :=
      { scaling := ⟨1 / 10, 1 / 10 * grad.x, 1 / 10⟩
        position := ⟨ball_position.x - grad.x * kArrowOffset,
                     ball_position.y, ball_position.z⟩ }
    arrowZ :=
      { scaling := ⟨1 / 10, 1 / 10 * grad.z, 1 / 10⟩
        position := ⟨ball_position.x, ball_position.y,
                     ball_position.z - grad.z * kArrowOffset⟩ } }

/-- The loop `for (i = 0; i < animation_speedup; i++) p = gradientStep()`
(lines 174-175), run for `n` iterations from state `s` with `p` the current
value of the local variable. -/
def substeps {σ : Type} (ops : DescentOps σ) : Nat → σ → Point → σ × Point
  | 0, s, p => (s, p)
  | n + 1, s, _ => substeps ops n (ops.gradientStep s).1 (ops.gradientStep s).2

/-- The body of the loop over `all_descents` in `triggerAnimation` (lines
172-178). -/
def tickDescent {σ : Type} (ops : DescentOps σ) (speedup : Int)
    (descent : GradientDescent σ) : GradientDescent σ :=
  if ops.isConverged descent.state then descent
  else
    let r := substeps ops speedup.toNat descent.state ops.defaultPoint
    let d1 : GradientDescent σ :=
      { descent with state := r.1, ball := setBallPosition ops.f descent.ball r.2 }
    setArrowGeometry d1 ⟨ops.gradX r.1, ops.gradZ r.1⟩

/-- The loop over `all_descents` in `triggerAnimation` (lines 171-179). -/
def tickAll {σ : Type} (ops : DescentOps σ) (speedup : Int)
    (ds : List (GradientDescent σ)) : List (GradientDescent σ) :=
  ds.map (tickDescent ops speedup)

namespace Plot

variable {σ : Type}

/-- `Plot::triggerAnimation` (lines 169-182). The `%` of C++ truncates, and is
undefined for a zero divisor; `timer_counter + 1` is undefined beyond
`INT_MAX`. -/
def triggerAnimation (ops : DescentOps σ) (P : Plot σ) : Except Fault (Plot σ) :=
  let ds := if P.timer_counter = 0 then tickAll ops P.animation_speedup P.all_descents
            else P.all_descents
  if P.timer_counter + 1 > INT_MAX then .error .signedOverflow
  else if P.animation_slowdown = 0 then .error .divideByZero
  else .ok { P with
    all_descents := ds
    timer_counter := Int.tmod (P.timer_counter + 1) P.animation_slowdown }

/-- `Plot::toggleAnimation` (lines 185-187). -/
def toggleAnimation (P : Plot σ) : Plot σ :=
  if P.m_timer.active then { P with m_timer := { P.m_timer with active := false } }
  else { P with m_timer := { active := true, interval := 15 } }

/-- The body of the loop in `restartAnimation` (lines 192-196). -/
def restartDescent (ops : DescentOps σ) (descent : GradientDescent σ) :
    GradientDescent σ :=
  let s := ops.resetPosition descent.state
  let p := ops.getPosition s
  let d1 : GradientDescent σ :=
    { descent with state := s, ball := setBallPosition ops.f descent.ball p }
  setArrowGeometry d1 ⟨ops.gradX s, ops.gradZ s⟩

/-- `Plot::restartAnimation` (lines 190-198). -/
def restartAnimation (ops : DescentOps σ) (P : Plot σ) : Plot σ :=
  { P with all_descents := P.all_descents.map (restartDescent ops) }

/-- `Plot::restartFromNewPosition` (lines 201-210). -/
def restartFromNewPosition (ops : DescentOps σ) (P : Plot σ) (q_pos : QPoint) :
    Except Fault (Plot σ) :=
  if q_pos = invalidSelectionPosition then .ok P
  else
    match itemAt P.m_surfaceProxy q_pos with
    | none => .error .itemOutOfRange
    | some p =>
      let P1 : Plot σ :=
        { P with all_descents := P.all_descents.map fun descent =>
            { descent with state := ops.setStartingPosition p.x p.z descent.state } }
      .ok (restartAnimation ops P1)

/-- `Plot::setAnimationSpeed` (lines 217-227). -/
def setAnimationSpeed (P : Plot σ) (index : Int) : Plot σ :=
  let P1 : Plot σ := { P with animation_slowdown := 1, animation_speedup := 1 }
  if index = 0 then { P1 with animation_slowdown := 10 }
  else if index = 1 then { P1 with animation_slowdown := 5 }
  else if index = 2 then P1
  else if index = 3 then { P1 with animation_speedup := 5 }
  else if index = 4 then { P1 with animation_speedup := 10 }
  else P1

end Plot

/-! ## Sequences of calls -/

/-- A call of one of the slots of `Plot`. -/
inductive Call where
  | triggerAnimation
  | toggleAnimation
  | setAnimationSpeed (index : Int)
  | restartAnimation
  | restartFromNewPosition (q_pos : QPoint)
deriving DecidableEq

/-- The effect of one call. -/
def Call.apply {σ : Type} (ops : DescentOps σ) (P : Plot σ) : Call → Except Fault (Plot σ)
  | .triggerAnimation => P.triggerAnimation ops
  | .toggleAnimation => .ok P.toggleAnimation
  | .setAnimationSpeed index => .ok (P.setAnimationSpeed index)
  | .restartAnimation => .ok (P.restartAnimation ops)
  | .restartFromNewPosition q_pos => P.restartFromNewPosition ops q_pos

/-- The effect of a sequence of calls, first call first. -/
def run {σ : Type} (ops : DescentOps σ) : List Call → Plot σ → Except Fault (Plot σ)
  | [], P => .ok P
  | c :: cs, P =>
    match c.apply ops P with
    | .ok Q => run ops cs Q
    | .error e => .error e

/-- The state after `n` timer fires. -/
def fires {σ : Type} (ops : DescentOps σ) (n : Nat) (P : Plot σ) : Except Fault (Plot σ) :=
  run ops (List.replicate n Call.triggerAnimation) P

/-- A call that is neither of the two restarts. -/
def Call.isScheduling : Call → Bool
  | .triggerAnimation => true
  | .toggleAnimation => true
  | .setAnimationSpeed _ => true
  | _ => false

/-- A timer fire, or a speed change to one of the levels 0..4. -/
def Call.isFireOrLevel : Call → Bool
  | .triggerAnimation => true
  | .setAnimationSpeed index => decide (0 ≤ index ∧ index ≤ 4)
  | _ => false

/-! ## A concrete optimizer and plot, used to instantiate the results -/

/-- State of the vanilla optimizer: current position, starting position and
the convergence flag. -/
structure VanillaState where
  position : Point
  start : Point
  converged : Bool
deriving DecidableEq

/-- Modelled from the spec: the vanilla variant of §4.2 (`position -=
learning_rate * gradient`) on the bowl `f(x,z) = x² + z²` with learning rate
`0.1` of §8; a converged optimizer no longer moves, `resetPosition` returns to
the starting position and clears convergence, `setStartingPosition`
overwrites the starting position and repositions the state there. -/
def vanilla : DescentOps VanillaState where
  f x z := x * x + z * z
  isConverged s := s.converged
  gradientStep s :=
    if s.converged then (s, s.position)
    else
      let p : Point := ⟨s.position.x - 1 / 10 * (2 * s.position.x),
                        s.position.z - 1 / 10 * (2 * s.position.z)⟩
      ({ s with position := p
                converged := decide ((2 * p.x) ^ 2 + (2 * p.z) ^ 2 < 1 / 1000000) }, p)
  resetPosition s := { s with position := s.start, converged := false }
  setStartingPosition x z s := { s with position := ⟨x, z⟩, start := ⟨x, z⟩ }
  getPosition s := s.position
  gradX s := 2 * s.position.x
  gradZ s := 2 * s.position.z
  defaultPoint := ⟨0, 0⟩

/-- An optimizer object in state `s` whose items have not been placed yet. -/
def freshDescent {σ : Type} (s : σ) : GradientDescent σ :=
  { state := s
    ball := ⟨⟨0, 0, 0⟩, ⟨1, 1, 1⟩⟩
    arrowX := ⟨⟨0, 0, 0⟩, ⟨1, 1, 1⟩⟩
    arrowZ := ⟨⟨0, 0, 0⟩, ⟨1, 1, 1⟩⟩ }

/-- A vanilla optimizer resting, converged, at the minimum of the bowl. -/
def atRest : VanillaState := ⟨⟨0, 0⟩, ⟨5, 5⟩, true⟩

/-- A vanilla optimizer at its starting position `(5, 5)`. -/
def moving : VanillaState := ⟨⟨5, 5⟩, ⟨5, 5⟩, false⟩

/-- A plot over the bowl with five optimizers, the first one converged, the
timer stopped, and the counters at `timer_counter = 0`, `animation_slowdown =
1`, `animation_speedup = 1`. -/
def bowlPlot : Plot VanillaState :=
  { all_descents := [freshDescent atRest, freshDescent moving, freshDescent moving,
                     freshDescent moving, freshDescent moving]
    m_surfaceProxy := initializeSurface vanilla.f
    m_timer := ⟨false, 0⟩
    timer_counter := 0
    animation_slowdown := 1
    animation_speedup := 1 }

/-- A surface that rises steeply along x: `f(x, z) = 49 x`. -/
def ramp : ℚ → ℚ → ℚ := fun x _ => 49 * x

/-- One optimizer step on the state alone. -/
def stepState {σ : Type} (ops : DescentOps σ) (s : σ) : σ := (ops.gradientStep s).1

end GDViz

namespace GDViz

/-! ## The speed selector -/

/-- C1, as stated, fails at level 2: after `setAnimationSpeed 2` both factors
equal 1, so it is not the case that exactly one of them is greater than 1. -/
theorem setAnimationSpeed_level_two_refutes_exactly_one :
    (0 : Int) ≤ 2 ∧ (2 : Int) ≤ 4 ∧
    ¬ (((bowlPlot.setAnimationSpeed 2).animation_slowdown > 1 ∧
          (bowlPlot.setAnimationSpeed 2).animation_speedup = 1) ∨
       ((bowlPlot.setAnimationSpeed 2).animation_speedup > 1 ∧
          (bowlPlot.setAnimationSpeed 2).animation_slowdown = 1)) := by
  simp [Plot.setAnimationSpeed]

/-- C1, amended: for every level in 0..4 other than 2, after
`setAnimationSpeed level` exactly one of the two factors is greater than 1 and
the other equals 1; at level 2 both factors equal 1. -/
theorem setAnimationSpeed_levels {σ : Type} (P : Plot σ) (level : Int)
    (h0 : 0 ≤ level) (h4 : level ≤ 4) :
    (level ≠ 2 →
      ((P.setAnimationSpeed level).animation_slowdown > 1 ∧
          (P.setAnimationSpeed level).animation_speedup = 1) ∨
      ((P.setAnimationSpeed level).animation_speedup > 1 ∧
          (P.setAnimationSpeed level).animation_slowdown = 1)) ∧
    (level = 2 →
      (P.setAnimationSpeed level).animation_slowdown = 1 ∧
      (P.setAnimationSpeed level).animation_speedup = 1) := by
  interval_cases level <;> simp [Plot.setAnimationSpeed]

/-- Instance of `setAnimationSpeed_levels` at level 3 of the bowl plot. -/
theorem setAnimationSpeed_levels_witness :
    ((3 : Int) ≠ 2 →
      ((bowlPlot.setAnimationSpeed 3).animation_slowdown > 1 ∧
          (bowlPlot.setAnimationSpeed 3).animation_speedup = 1) ∨
      ((bowlPlot.setAnimationSpeed 3).animation_speedup > 1 ∧
          (bowlPlot.setAnimationSpeed 3).animation_slowdown = 1)) ∧
    ((3 : Int) = 2 →
      (bowlPlot.setAnimationSpeed 3).animation_slowdown = 1 ∧
      (bowlPlot.setAnimationSpeed 3).animation_speedup = 1) :=
  setAnimationSpeed_levels bowlPlot 3 (by decide) (by decide)

/-! ## Start and stop -/

/-- C7: `toggleAnimation` flips the timer between running and stopped and
leaves the optimizers, the surface, `timer_counter`, `animation_slowdown` and
`animation_speedup` as they were; toggling twice gives back the original
running/stopped state, again with everything else unchanged. -/
theorem toggleAnimation_flips_only_timer {σ : Type} (P : Plot σ) :
    P.toggleAnimation.m_timer.active = !P.m_timer.active ∧
    P.toggleAnimation.all_descents = P.all_descents ∧
    P.toggleAnimation.m_surfaceProxy = P.m_surfaceProxy ∧
    P.toggleAnimation.timer_counter = P.timer_counter ∧
    P.toggleAnimation.animation_slowdown = P.animation_slowdown ∧
    P.toggleAnimation.animation_speedup = P.animation_speedup ∧
    P.toggleAnimation.toggleAnimation.m_timer.active = P.m_timer.active ∧
    P.toggleAnimation.toggleAnimation =
      { P with m_timer := { active := P.m_timer.active, interval := 15 } } := by
  unfold Plot.toggleAnimation
  cases h : P.m_timer.active <;> simp [h]

/-! ## Marker placement -/

/-- C8, at the failing input: on the surface `f(x, z) = 49 x` and at the point
`(0, 0)` the hole branch is taken (the sample at `x + stepX` is 16 above the
surface height 0), and the marker is placed at height `-9`, which is not
above the surface height `f(0, 0) = 0`. -/
theorem setBallPosition_hole_branch_below_surface :
    ramp (0 + stepX) 0 - ramp 0 0 > 15 ∧
    (setBallPosition ramp ⟨⟨0, 0, 0⟩, ⟨1, 1, 1⟩⟩ ⟨0, 0⟩).position = ⟨0, -9, 0⟩ ∧
    ¬ (ramp 0 0 < (setBallPosition ramp ⟨⟨0, 0, 0⟩, ⟨1, 1, 1⟩⟩ ⟨0, 0⟩).position.y) := by
  norm_num [setBallPosition, ballHeight, ramp, stepX, stepZ, sampleMax, sampleMin,
    sampleCountX, sampleCountZ, kBallYOffset]

/-- In the normal branch of `setBallPosition` the marker is `kBallYOffset`
above the surface. -/
theorem ballHeight_normal_branch (f : ℚ → ℚ → ℚ) (p : Point)
    (hx : f (p.x + stepX) p.z - f p.x p.z ≤ 15)
    (hz : f p.x (p.z + stepZ) - f p.x p.z ≤ 15) :
    ballHeight f p = f p.x p.z + kBallYOffset ∧ f p.x p.z < ballHeight f p := by
  have h : ¬ (f (p.x + stepX) p.z - f p.x p.z > 15 ∨ f p.x (p.z + stepZ) - f p.x p.z > 15) := by
    push_neg; exact ⟨hx, hz⟩
  simp only [ballHeight, h, if_false]
  refine ⟨trivial, ?_⟩
  simp [kBallYOffset]

end GDViz

namespace GDViz

/-! ## The substep loop -/

/-- A loop of `n + 1` iterations ends with a step taken from the `n`-fold step
of the old state, whatever the initial value of the local variable. -/
theorem substeps_succ {σ : Type} (ops : DescentOps σ) (n : Nat) (s : σ) (p : Point) :
    substeps ops (n + 1) s p = ops.gradientStep ((stepState ops)^[n] s) := by
  induction n generalizing s p with
  | zero => rfl
  | succ n ih =>
    rw [substeps, ih, Function.iterate_succ_apply]
    rfl

/-- The loop for a positive `int` count. -/
theorem substeps_of_pos {σ : Type} (ops : DescentOps σ) (k : Int) (hk : 1 ≤ k) (s : σ)
    (p : Point) :
    substeps ops k.toNat s p = ops.gradientStep ((stepState ops)^[k.toNat - 1] s) := by
  obtain ⟨n, hn⟩ : ∃ n, k.toNat = n + 1 := ⟨k.toNat - 1, by omega⟩
  rw [hn, substeps_succ]
  rfl

/-- A converged optimizer is skipped by the loop body. -/
theorem tickDescent_converged {σ : Type} (ops : DescentOps σ) (k : Int)
    (d : GradientDescent σ) (h : ops.isConverged d.state = true) :
    tickDescent ops k d = d := by
  simp [tickDescent, h]

/-! ## One timer fire -/

/-- Where `triggerAnimation` is defined, it returns the plot with the ticked
optimizers and the advanced counter. -/
theorem triggerAnimation_ok {σ : Type} (ops : DescentOps σ) (P : Plot σ)
    (hc : P.timer_counter < INT_MAX) (hs : P.animation_slowdown ≠ 0) :
    P.triggerAnimation ops = .ok { P with
      all_descents := if P.timer_counter = 0
        then tickAll ops P.animation_speedup P.all_descents else P.all_descents
      timer_counter := Int.tmod (P.timer_counter + 1) P.animation_slowdown } := by
  have h1 : ¬ (P.timer_counter + 1 > INT_MAX) := by omega
  simp [Plot.triggerAnimation, h1, hs]

/-- A fire never changes the speed factors, the timer or the surface. -/
theorem triggerAnimation_frame {σ : Type} (ops : DescentOps σ) (P Q : Plot σ)
    (h : P.triggerAnimation ops = .ok Q) :
    Q.animation_slowdown = P.animation_slowdown ∧
    Q.animation_speedup = P.animation_speedup ∧
    Q.m_timer = P.m_timer ∧ Q.m_surfaceProxy = P.m_surfaceProxy ∧
    Q.timer_counter = Int.tmod (P.timer_counter + 1) P.animation_slowdown ∧
    Q.all_descents = (if P.timer_counter = 0
        then tickAll ops P.animation_speedup P.all_descents else P.all_descents) := by
  unfold Plot.triggerAnimation at h
  split_ifs at h <;> simp at h <;> subst h <;> simp_all

/-- A fire fails with a division by zero only when the slowdown is zero. -/
theorem triggerAnimation_divideByZero {σ : Type} (ops : DescentOps σ) (P : Plot σ)
    (h : P.triggerAnimation ops = .error .divideByZero) : P.animation_slowdown = 0 := by
  unfold Plot.triggerAnimation at h
  split_ifs at h <;> simp_all

/-- The counter after a fire, for a counter and slowdown in range. -/
theorem tmod_counter (t s : Int) (ht : 0 ≤ t) (hs : 1 ≤ s) :
    Int.tmod (t + 1) s = (t + 1) % s :=
  Int.tmod_eq_emod (by omega) (by omega)

/-! ## Sequences of calls -/

/-- A sequence whose first call returns continues from the returned plot. -/
theorem run_cons_ok {σ : Type} (ops : DescentOps σ) (c : Call) (cs : List Call)
    (P Q : Plot σ) (h : c.apply ops P = .ok Q) : run ops (c :: cs) P = run ops cs Q := by
  simp [run, h]

/-- Running a concatenation is running its second part from the result of the
first. -/
theorem run_append {σ : Type} (ops : DescentOps σ) (cs cs2 : List Call) (P Q : Plot σ)
    (h : run ops cs P = .ok Q) : run ops (cs ++ cs2) P = run ops cs2 Q := by
  induction cs generalizing P with
  | nil => simp [run] at h; subst h; rfl
  | cons c cs ih =>
    simp only [List.cons_append, run] at h ⊢
    cases hc : c.apply ops P with
    | error e => rw [hc] at h; simp at h
    | ok R => rw [hc] at h; exact ih R h

/-- `n + 1` fires are one fire followed by `n` fires. -/
theorem fires_succ {σ : Type} (ops : DescentOps σ) (n : Nat) (P Q : Plot σ)
    (h : P.triggerAnimation ops = .ok Q) : fires ops (n + 1) P = fires ops n Q := by
  unfold fires
  rw [List.replicate_succ]
  exact run_cons_ok ops _ _ P Q h

/-- From a counter `t` with `0 ≤ t < s`, `n` fires succeed and leave the
counter at `(t + n) mod s`, with the speed factors untouched. -/
theorem fires_counter {σ : Type} (ops : DescentOps σ) (n : Nat) (P : Plot σ)
    (h0 : 0 ≤ P.timer_counter) (hlt : P.timer_counter < P.animation_slowdown)
    (hmax : P.animation_slowdown ≤ INT_MAX) :
    ∃ Q, fires ops n P = .ok Q ∧
      Q.timer_counter = (P.timer_counter + n) % P.animation_slowdown ∧
      Q.animation_slowdown = P.animation_slowdown ∧
      Q.animation_speedup = P.animation_speedup := by
  induction n generalizing P with
  | zero =>
    refine ⟨P, rfl, ?_, rfl, rfl⟩
    simp [Int.emod_eq_of_lt h0 hlt]
  | succ n ih =>
    obtain ⟨P1, hok⟩ : ∃ P1, P.triggerAnimation ops = .ok P1 :=
      ⟨_, triggerAnimation_ok ops P (by omega) (by omega)⟩
    obtain ⟨hs, hk, -, -, hc, -⟩ := triggerAnimation_frame ops P P1 hok
    rw [tmod_counter _ _ h0 (by omega)] at hc
    have hpos : 0 < P.animation_slowdown := by omega
    obtain ⟨Q, hQ, hQc, hQs, hQk⟩ := ih P1
      (by rw [hc]; exact Int.emod_nonneg _ (by omega))
      (by rw [hc, hs]; exact Int.emod_lt_of_pos _ hpos)
      (by rw [hs]; exact hmax)
    refine ⟨Q, ?_, ?_, ?_, ?_⟩
    · rw [fires_succ ops n P _ hok]; exact hQ
    · rw [hQc, hc, hs, Int.emod_add_emod]
      congr 1
      push_cast
      ring
    · rw [hQs, hs]
    · rw [hQk, hk]

end GDViz

namespace GDViz

/-! ## The schedule of ticks -/

end GDViz

namespace GDViz

/-! ## Converged optimizers -/

/-- A call other than a restart leaves a converged optimizer object as it is. -/
theorem apply_scheduling_keeps_converged {σ : Type} (ops : DescentOps σ) (c : Call)
    (P Q : Plot σ) (i : Nat) (d : GradientDescent σ) (hc : c.isScheduling = true)
    (hQ : c.apply ops P = .ok Q) (hd : P.all_descents[i]? = some d)
    (hconv : ops.isConverged d.state = true) : Q.all_descents[i]? = some d := by
  cases c with
  | triggerAnimation =>
    obtain ⟨-, -, -, -, -, hds⟩ := triggerAnimation_frame ops P Q hQ
    rw [hds]
    split_ifs
    · rw [tickAll, List.getElem?_map, hd, Option.map_some', tickDescent_converged ops _ d hconv]
    · exact hd
  | toggleAnimation =>
    simp only [Call.apply, Except.ok.injEq] at hQ
    subst hQ
    unfold Plot.toggleAnimation
    split_ifs <;> exact hd
  | setAnimationSpeed index =>
    simp only [Call.apply, Except.ok.injEq] at hQ
    subst hQ
    unfold Plot.setAnimationSpeed
    split_ifs <;> exact hd
  | restartAnimation => simp [Call.isScheduling] at hc
  | restartFromNewPosition q => simp [Call.isScheduling] at hc

/-- A call other than a restart returns from a plot whose slowdown is a
positive `int` and whose counter is below `INT_MAX`, and leaves such a plot. -/
theorem apply_scheduling_ok {σ : Type} (ops : DescentOps σ) (c : Call) (P : Plot σ)
    (hc : c.isScheduling = true) (h1 : 1 ≤ P.animation_slowdown)
    (hmax : P.animation_slowdown ≤ INT_MAX) (ht : P.timer_counter < INT_MAX) :
    ∃ Q, c.apply ops P = .ok Q ∧ 1 ≤ Q.animation_slowdown ∧
      Q.animation_slowdown ≤ INT_MAX ∧ Q.timer_counter < INT_MAX := by
  cases c with
  | triggerAnimation =>
    obtain ⟨Q, hok⟩ : ∃ Q, P.triggerAnimation ops = .ok Q :=
      ⟨_, triggerAnimation_ok ops P ht (by omega)⟩
    obtain ⟨hs, -, -, -, hcnt, -⟩ := triggerAnimation_frame ops P Q hok
    refine ⟨Q, hok, by omega, by omega, ?_⟩
    have := Int.tmod_lt_of_pos (P.timer_counter + 1) (by omega : 0 < P.animation_slowdown)
    omega
  | toggleAnimation =>
    refine ⟨_, rfl, ?_⟩
    unfold Plot.toggleAnimation
    split_ifs <;> exact ⟨h1, hmax, ht⟩
  | setAnimationSpeed index =>
    refine ⟨_, rfl, ?_⟩
    unfold Plot.setAnimationSpeed
    split_ifs <;> simp [INT_MAX] <;> exact ht
  | restartAnimation => simp [Call.isScheduling] at hc
  | restartFromNewPosition q => simp [Call.isScheduling] at hc

/-- C4: across every sequence of `triggerAnimation`, `toggleAnimation` and
`setAnimationSpeed` calls a converged optimizer object is left exactly as it
was (state, marker and arrows), hence still converged; the sequence returns
from every plot with a positive `int` slowdown; and `restartAnimation` does
operate on it. -/
theorem converged_untouched_by_scheduling {σ : Type} (ops : DescentOps σ) (cs : List Call)
    (P : Plot σ) (i : Nat) (d : GradientDescent σ)
    (hcs : ∀ c ∈ cs, c.isScheduling = true)
    (hd : P.all_descents[i]? = some d) (hconv : ops.isConverged d.state = true) :
    (∀ Q, run ops cs P = .ok Q → Q.all_descents[i]? = some d) ∧
    (1 ≤ P.animation_slowdown → P.animation_slowdown ≤ INT_MAX →
      P.timer_counter < INT_MAX →
      ∃ Q, run ops cs P = .ok Q ∧ Q.all_descents[i]? = some d) ∧
    (P.restartAnimation ops).all_descents[i]? = some (Plot.restartDescent ops d) := by
  have part1 : ∀ (cs : List Call) (P : Plot σ), (∀ c ∈ cs, c.isScheduling = true) →
      P.all_descents[i]? = some d → ∀ Q, run ops cs P = .ok Q →
      Q.all_descents[i]? = some d := by
    intro cs
    induction cs with
    | nil =>
      intro P _ hd Q hQ
      simp only [run, Except.ok.injEq] at hQ
      subst hQ
      exact hd
    | cons c cs ih =>
      intro P hcs hd Q hQ
      cases hc : c.apply ops P with
      | error e => simp [run, hc] at hQ
      | ok R =>
        rw [run_cons_ok ops c cs P R hc] at hQ
        exact ih R (fun c1 h1 => hcs c1 (List.mem_cons_of_mem _ h1))
          (apply_scheduling_keeps_converged ops c P R i d (hcs c (List.mem_cons_self _ _))
            hc hd hconv) Q hQ
  have part2 : ∀ (cs : List Call) (P : Plot σ), (∀ c ∈ cs, c.isScheduling = true) →
      1 ≤ P.animation_slowdown → P.animation_slowdown ≤ INT_MAX →
      P.timer_counter < INT_MAX → ∃ Q, run ops cs P = .ok Q := by
    intro cs
    induction cs with
    | nil => intro P _ _ _ _; exact ⟨P, rfl⟩
    | cons c cs ih =>
      intro P hcs h1 hmax ht
      obtain ⟨R, hR, hR1, hRmax, hRt⟩ :=
        apply_scheduling_ok ops c P (hcs c (List.mem_cons_self _ _)) h1 hmax ht
      obtain ⟨Q, hQ⟩ := ih R (fun c1 h1 => hcs c1 (List.mem_cons_of_mem _ h1)) hR1 hRmax hRt
      exact ⟨Q, by rw [run_cons_ok ops c cs P R hR]; exact hQ⟩
  refine ⟨part1 cs P hcs hd, ?_, ?_⟩
  · intro h1 hmax ht
    obtain ⟨Q, hQ⟩ := part2 cs P hcs h1 hmax ht
    exact ⟨Q, hQ, part1 cs P hcs hd Q hQ⟩
  · simp [Plot.restartAnimation, List.getElem?_map, hd]

/-- Instance of `converged_untouched_by_scheduling`: the converged first
optimizer of the bowl plot across a speed change, a toggle and three fires. -/
theorem converged_untouched_by_scheduling_witness :
    (∀ c ∈ [Call.setAnimationSpeed 4, Call.toggleAnimation, Call.triggerAnimation,
        Call.triggerAnimation, Call.triggerAnimation], c.isScheduling = true) ∧
    bowlPlot.all_descents[0]? = some (freshDescent atRest) ∧
    vanilla.isConverged (freshDescent atRest).state = true ∧
    ((∀ Q, run vanilla [Call.setAnimationSpeed 4, Call.toggleAnimation, Call.triggerAnimation,
        Call.triggerAnimation, Call.triggerAnimation] bowlPlot = .ok Q →
        Q.all_descents[0]? = some (freshDescent atRest)) ∧
     (1 ≤ bowlPlot.animation_slowdown → bowlPlot.animation_slowdown ≤ INT_MAX →
        bowlPlot.timer_counter < INT_MAX →
        ∃ Q, run vanilla [Call.setAnimationSpeed 4, Call.toggleAnimation,
          Call.triggerAnimation, Call.triggerAnimation, Call.triggerAnimation] bowlPlot = .ok Q ∧
          Q.all_descents[0]? = some (freshDescent atRest)) ∧
     (bowlPlot.restartAnimation vanilla).all_descents[0]? =
        some (Plot.restartDescent vanilla (freshDescent atRest))) :=
  ⟨by decide, rfl, rfl,
    converged_untouched_by_scheduling vanilla _ bowlPlot 0 (freshDescent atRest)
      (by decide) rfl rfl⟩

/-! ## Restart from a selected point -/

/-- C5: for a selection other than the invalid one whose surface item is at
`(x, z)`, `restartFromNewPosition` is `restartAnimation` run after
`setStartingPosition(x, z)` on every optimizer: every optimizer, converged or
not, is reset after being given the same `(x, z)`; so if
`setStartingPosition` followed by `resetPosition` places an optimizer at
the given point, every optimizer ends at `(x, z)`. -/
theorem restartFromNewPosition_valid {σ : Type} (ops : DescentOps σ) (P : Plot σ)
    (q_pos : QPoint) (item : QVector3D)
    (hq : q_pos ≠ invalidSelectionPosition)
    (hitem : itemAt P.m_surfaceProxy q_pos = some item) :
    P.restartFromNewPosition ops q_pos =
      .ok (Plot.restartAnimation ops { P with
        all_descents := P.all_descents.map fun d =>
          { d with state := ops.setStartingPosition item.x item.z d.state } }) ∧
    ∃ Q, P.restartFromNewPosition ops q_pos = .ok Q ∧
      Q.all_descents = P.all_descents.map (fun d => Plot.restartDescent ops
        { d with state := ops.setStartingPosition item.x item.z d.state }) ∧
      Q.all_descents.length = P.all_descents.length ∧
      (∀ (i : Nat) (d : GradientDescent σ), P.all_descents[i]? = some d →
        ∃ d1, Q.all_descents[i]? = some d1 ∧
          d1.state = ops.resetPosition (ops.setStartingPosition item.x item.z d.state)) ∧
      ((∀ s, ops.getPosition (ops.resetPosition (ops.setStartingPosition item.x item.z s)) =
          ⟨item.x, item.z⟩) →
        ∀ d1 ∈ Q.all_descents, ops.getPosition d1.state = ⟨item.x, item.z⟩) := by
  have hres : P.restartFromNewPosition ops q_pos =
      .ok (Plot.restartAnimation ops { P with
        all_descents := P.all_descents.map fun d =>
          { d with state := ops.setStartingPosition item.x item.z d.state } }) := by
    simp [Plot.restartFromNewPosition, hq, hitem]
  refine ⟨hres, _, hres, ?_, ?_, ?_, ?_⟩
  · simp [Plot.restartAnimation, List.map_map, Function.comp_def]
  · simp [Plot.restartAnimation]
  · intro i d hd
    refine ⟨Plot.restartDescent ops
      { d with state := ops.setStartingPosition item.x item.z d.state }, ?_, ?_⟩
    · simp [Plot.restartAnimation, List.getElem?_map, hd]
    · simp [Plot.restartDescent, setArrowGeometry]
  · intro hplace d1 hd1
    simp only [Plot.restartAnimation, List.map_map, List.mem_map, Function.comp_apply] at hd1
    obtain ⟨d, -, rfl⟩ := hd1
    simp [Plot.restartDescent, setArrowGeometry, hplace]

/-- Inside the grid, `itemAt` finds the sample written by `initializeSurface`. -/
theorem itemAt_initializeSurface (f : ℚ → ℚ → ℚ) (i j : Nat) (hi : i < sampleCountZ)
    (hj : j < sampleCountX) :
    itemAt (initializeSurface f) ⟨i, j⟩ =
      some ⟨min sampleMax ((j : ℚ) * stepX + sampleMin),
            f (min sampleMax ((j : ℚ) * stepX + sampleMin))
              (min sampleMax ((i : ℚ) * stepZ + sampleMin)),
            min sampleMax ((i : ℚ) * stepZ + sampleMin)⟩ := by
  have h : ¬ ((i : Int) < 0 ∨ (j : Int) < 0) := by omega
  simp only [itemAt, h, if_false, Int.toNat_ofNat, initializeSurface, List.getElem?_map,
    List.getElem?_range hi, List.getElem?_range hj, Option.map_some', Option.some_bind]

/-- The item in row 0, column 0 of the bowl surface. -/
theorem itemAt_bowl_origin :
    itemAt bowlPlot.m_surfaceProxy ⟨0, 0⟩ = some ⟨-8, 128, -8⟩ := by
  have h := itemAt_initializeSurface vanilla.f 0 0 (by decide) (by decide)
  simp only [Nat.cast_zero] at h
  rw [show bowlPlot.m_surfaceProxy = initializeSurface vanilla.f from rfl, h]
  norm_num [vanilla, sampleMax, sampleMin]

/-- Instance of `restartFromNewPosition_valid`: selecting the corner sample
`(-8, -8)` of the bowl surface. -/
theorem restartFromNewPosition_valid_witness :
    (⟨0, 0⟩ : QPoint) ≠ invalidSelectionPosition ∧
    itemAt bowlPlot.m_surfaceProxy ⟨0, 0⟩ = some ⟨-8, 128, -8⟩ ∧
    (bowlPlot.restartFromNewPosition vanilla ⟨0, 0⟩ =
      .ok (Plot.restartAnimation vanilla { bowlPlot with
        all_descents := bowlPlot.all_descents.map fun d =>
          { d with state := vanilla.setStartingPosition (-8) (-8) d.state } }) ∧
    ∃ Q, bowlPlot.restartFromNewPosition vanilla ⟨0, 0⟩ = .ok Q ∧
      Q.all_descents = bowlPlot.all_descents.map (fun d => Plot.restartDescent vanilla
        { d with state := vanilla.setStartingPosition (-8) (-8) d.state }) ∧
      Q.all_descents.length = bowlPlot.all_descents.length ∧
      (∀ (i : Nat) (d : GradientDescent VanillaState), bowlPlot.all_descents[i]? = some d →
        ∃ d1, Q.all_descents[i]? = some d1 ∧
          d1.state = vanilla.resetPosition (vanilla.setStartingPosition (-8) (-8) d.state)) ∧
      ((∀ s, vanilla.getPosition (vanilla.resetPosition
            (vanilla.setStartingPosition (-8) (-8) s)) = ⟨-8, -8⟩) →
        ∀ d1 ∈ Q.all_descents, vanilla.getPosition d1.state = ⟨-8, -8⟩)) :=
  ⟨by decide, itemAt_bowl_origin,
    restartFromNewPosition_valid vanilla bowlPlot ⟨0, 0⟩ ⟨-8, 128, -8⟩ (by decide)
      itemAt_bowl_origin⟩

/-- The vanilla optimizer is placed at the given point by `setStartingPosition`
followed by `resetPosition`. -/
theorem vanilla_places (x z : ℚ) (s : VanillaState) :
    vanilla.getPosition (vanilla.resetPosition (vanilla.setStartingPosition x z s)) = ⟨x, z⟩ :=
  rfl

/-! ## Selections without an item -/

end GDViz

namespace GDViz

/-! ## The counter across speed changes -/

/-- From a counter at zero, slowing down to 5, firing twice and returning to
normal speed leaves the counter at 2 with a slowdown of 1. -/
theorem run_slow_then_normal {σ : Type} (ops : DescentOps σ) (P : Plot σ)
    (h0 : P.timer_counter = 0) :
    ∃ Q, run ops [Call.setAnimationSpeed 1, Call.triggerAnimation, Call.triggerAnimation,
        Call.setAnimationSpeed 2] P = .ok Q ∧
      Q.timer_counter = 2 ∧ Q.animation_slowdown = 1 := by
  have e1 : Int.tmod 1 5 = 1 := by decide
  have e2 : Int.tmod 2 5 = 2 := by decide
  simp [run, Call.apply, Plot.triggerAnimation, Plot.setAnimationSpeed, h0, INT_MAX, e1, e2]

/-- C9, as stated, fails: from `(timer_counter, animation_slowdown,
animation_speedup) = (0, 1, 1)` the calls `setAnimationSpeed(1)`,
`triggerAnimation`, `triggerAnimation`, `setAnimationSpeed(2)` reach a state
with `timer_counter = 2` and `animation_slowdown = 1`, where `timer_counter <
animation_slowdown` is false and the next fire is not a tick. -/
theorem speed_change_breaks_counter_bound :
    bowlPlot.timer_counter = 0 ∧ bowlPlot.animation_slowdown = 1 ∧
    bowlPlot.animation_speedup = 1 ∧
    (∀ c ∈ [Call.setAnimationSpeed 1, Call.triggerAnimation, Call.triggerAnimation,
        Call.setAnimationSpeed 2], c.isFireOrLevel = true) ∧
    ∃ Q, run vanilla [Call.setAnimationSpeed 1, Call.triggerAnimation, Call.triggerAnimation,
        Call.setAnimationSpeed 2] bowlPlot = .ok Q ∧
      Q.timer_counter = 2 ∧ Q.animation_slowdown = 1 ∧
      ¬ (0 ≤ Q.timer_counter ∧ Q.timer_counter < Q.animation_slowdown) ∧
      ¬ (Q.timer_counter = 0) := by
  obtain ⟨Q, hQ, hc, hs⟩ := run_slow_then_normal vanilla bowlPlot rfl
  refine ⟨rfl, rfl, rfl, by decide, Q, hQ, hc, hs, ?_, ?_⟩
  · rw [hc, hs]; decide
  · rw [hc]; decide

/-- A fire or a speed change to a level 0..4 returns and keeps the counter in
`0..9` and the slowdown in `1..10`; a fire leaves the counter below the
slowdown. -/
theorem apply_fireOrLevel {σ : Type} (ops : DescentOps σ) (c : Call) (P : Plot σ)
    (hc : c.isFireOrLevel = true) (h0 : 0 ≤ P.timer_counter) (h10 : P.timer_counter < 10)
    (hs1 : 1 ≤ P.animation_slowdown) (hs10 : P.animation_slowdown ≤ 10) :
    ∃ Q, c.apply ops P = .ok Q ∧ 0 ≤ Q.timer_counter ∧ Q.timer_counter < 10 ∧
      1 ≤ Q.animation_slowdown ∧ Q.animation_slowdown ≤ 10 ∧
      (c = Call.triggerAnimation → Q.timer_counter < Q.animation_slowdown) := by
  cases c with
  | triggerAnimation =>
    obtain ⟨Q, hok⟩ : ∃ Q, P.triggerAnimation ops = .ok Q :=
      ⟨_, triggerAnimation_ok ops P (by simp only [INT_MAX]; omega) (by omega)⟩
    obtain ⟨hs, -, -, -, hcnt, -⟩ := triggerAnimation_frame ops P Q hok
    have hlt := Int.tmod_lt_of_pos (P.timer_counter + 1) (by omega : 0 < P.animation_slowdown)
    have hnn := Int.tmod_nonneg P.animation_slowdown (by omega : 0 ≤ P.timer_counter + 1)
    exact ⟨Q, hok, by omega, by omega, by omega, by omega, fun _ => by omega⟩
  | setAnimationSpeed index =>
    simp only [Call.isFireOrLevel, decide_eq_true_eq] at hc
    refine ⟨_, rfl, ?_⟩
    obtain ⟨hi0, hi4⟩ := hc
    interval_cases index <;> simp [Plot.setAnimationSpeed, h0, h10]
  | toggleAnimation => simp [Call.isFireOrLevel] at hc
  | restartAnimation => simp [Call.isFireOrLevel] at hc
  | restartFromNewPosition q => simp [Call.isFireOrLevel] at hc

/-- Every sequence of fires and speed changes to levels 0..4 returns and keeps
the counter in `0..9` and the slowdown in `1..10`. -/
theorem run_fireOrLevel {σ : Type} (ops : DescentOps σ) (cs : List Call) (P : Plot σ)
    (hcs : ∀ c ∈ cs, c.isFireOrLevel = true) (h0 : 0 ≤ P.timer_counter)
    (h10 : P.timer_counter < 10) (hs1 : 1 ≤ P.animation_slowdown)
    (hs10 : P.animation_slowdown ≤ 10) :
    ∃ Q, run ops cs P = .ok Q ∧ 0 ≤ Q.timer_counter ∧ Q.timer_counter < 10 ∧
      1 ≤ Q.animation_slowdown ∧ Q.animation_slowdown ≤ 10 := by
  induction cs generalizing P with
  | nil => exact ⟨P, rfl, h0, h10, hs1, hs10⟩
  | cons c cs ih =>
    obtain ⟨R, hR, a, b, c1, d, -⟩ :=
      apply_fireOrLevel ops c P (hcs c (List.mem_cons_self _ _)) h0 h10 hs1 hs10
    obtain ⟨Q, hQ, hQ2⟩ := ih R (fun c2 h2 => hcs c2 (List.mem_cons_of_mem _ h2)) a b c1 d
    exact ⟨Q, by rw [run_cons_ok ops c cs P R hR]; exact hQ, hQ2⟩

/-- From a non-negative counter and a slowdown `s ≥ 1`, a state with counter
zero is reached after at most `s` fires, so that a tick occurs within `s + 1`
fires. -/
theorem next_tick_within {σ : Type} (ops : DescentOps σ) (Q : Plot σ)
    (h0 : 0 ≤ Q.timer_counter) (ht : Q.timer_counter < INT_MAX)
    (hs1 : 1 ≤ Q.animation_slowdown) (hmax : Q.animation_slowdown ≤ INT_MAX) :
    ∃ j : Nat, (j : Int) ≤ Q.animation_slowdown ∧
      ∃ R, fires ops j Q = .ok R ∧ R.timer_counter = 0 := by
  by_cases hz : Q.timer_counter = 0
  · exact ⟨0, by omega, Q, rfl, hz⟩
  · obtain ⟨Q1, hok⟩ : ∃ Q1, Q.triggerAnimation ops = .ok Q1 :=
      ⟨_, triggerAnimation_ok ops Q ht (by omega)⟩
    obtain ⟨hs, -, -, -, hcnt, -⟩ := triggerAnimation_frame ops Q Q1 hok
    have hpos : 0 < Q.animation_slowdown := by omega
    have hlt := Int.tmod_lt_of_pos (Q.timer_counter + 1) hpos
    have hnn := Int.tmod_nonneg Q.animation_slowdown (by omega : 0 ≤ Q.timer_counter + 1)
    have hn0 : 0 ≤ (Q.animation_slowdown - Q1.timer_counter) % Q.animation_slowdown :=
      Int.emod_nonneg _ (by omega)
    have hn1 : (Q.animation_slowdown - Q1.timer_counter) % Q.animation_slowdown
        < Q.animation_slowdown := Int.emod_lt_of_pos _ hpos
    obtain ⟨n, hn⟩ : ∃ n : Nat,
        (n : Int) = (Q.animation_slowdown - Q1.timer_counter) % Q.animation_slowdown :=
      ⟨_, Int.toNat_of_nonneg hn0⟩
    obtain ⟨R, hR, hRc, -, -⟩ := fires_counter ops n Q1 (by omega) (by omega) (by omega)
    refine ⟨n + 1, by push_cast; omega, R, ?_, ?_⟩
    · rw [fires_succ ops n Q Q1 hok]; exact hR
    · rw [hRc, hs, hn, add_comm, Int.emod_add_emod]
      simp

/-- C9, amended: in every state reachable from `timer_counter = 0`,
`animation_slowdown = 1` (and any speedup, in particular 1) by fires and speed
changes to levels 0..4, `0 ≤ timer_counter < 10` and `1 ≤ animation_slowdown
≤ 10`; `timer_counter < animation_slowdown` holds right after every
`triggerAnimation`; and from every such state a state with `timer_counter =
0` is reached after at most `animation_slowdown` fires, so the next tick
occurs within at most `animation_slowdown + 1` fires. -/
theorem counter_bounds_reachable {σ : Type} (ops : DescentOps σ) (P : Plot σ)
    (cs : List Call) (h0 : P.timer_counter = 0) (hs : P.animation_slowdown = 1)
    (hcs : ∀ c ∈ cs, c.isFireOrLevel = true) :
    ∃ Q, run ops cs P = .ok Q ∧
      0 ≤ Q.timer_counter ∧ Q.timer_counter < 10 ∧
      1 ≤ Q.animation_slowdown ∧ Q.animation_slowdown ≤ 10 ∧
      (∀ cs1, cs = cs1 ++ [Call.triggerAnimation] →
        Q.timer_counter < Q.animation_slowdown) ∧
      ∃ j : Nat, (j : Int) ≤ Q.animation_slowdown ∧
        ∃ R, fires ops j Q = .ok R ∧ R.timer_counter = 0 := by
  obtain ⟨Q, hQ, a, b, c, d⟩ :=
    run_fireOrLevel ops cs P hcs (by omega) (by omega) (by omega) (by omega)
  refine ⟨Q, hQ, a, b, c, d, ?_, ?_⟩
  · intro cs1 hcs1
    subst hcs1
    obtain ⟨Q1, hQ1, a1, b1, c1, d1⟩ := run_fireOrLevel ops cs1 P
      (fun c2 h2 => hcs c2 (List.mem_append_left _ h2)) (by omega) (by omega) (by omega)
      (by omega)
    rw [run_append ops cs1 _ P Q1 hQ1] at hQ
    obtain ⟨Q2, hQ2, -, -, -, -, hlt⟩ :=
      apply_fireOrLevel ops Call.triggerAnimation Q1 rfl a1 b1 c1 d1
    rw [run_cons_ok ops _ _ Q1 Q2 hQ2] at hQ
    simp only [run, Except.ok.injEq] at hQ
    subst hQ
    exact hlt rfl
  · exact next_tick_within ops Q a (by simp only [INT_MAX]; omega) c
      (by simp only [INT_MAX]; omega)

/-- Instance of `counter_bounds_reachable`: the bowl plot slowed down, fired
twice and returned to normal speed. -/
theorem counter_bounds_reachable_witness :
    bowlPlot.timer_counter = 0 ∧ bowlPlot.animation_slowdown = 1 ∧
    bowlPlot.animation_speedup = 1 ∧
    (∀ c ∈ [Call.setAnimationSpeed 1, Call.triggerAnimation, Call.triggerAnimation,
        Call.setAnimationSpeed 2], c.isFireOrLevel = true) ∧
    ∃ Q, run vanilla [Call.setAnimationSpeed 1, Call.triggerAnimation, Call.triggerAnimation,
        Call.setAnimationSpeed 2] bowlPlot = .ok Q ∧
      0 ≤ Q.timer_counter ∧ Q.timer_counter < 10 ∧
      1 ≤ Q.animation_slowdown ∧ Q.animation_slowdown ≤ 10 ∧
      (∀ cs1, [Call.setAnimationSpeed 1, Call.triggerAnimation, Call.triggerAnimation,
          Call.setAnimationSpeed 2] = cs1 ++ [Call.triggerAnimation] →
        Q.timer_counter < Q.animation_slowdown) ∧
      ∃ j : Nat, (j : Int) ≤ Q.animation_slowdown ∧
        ∃ R, fires vanilla j Q = .ok R ∧ R.timer_counter = 0 :=
  ⟨rfl, rfl, rfl, by decide,
    counter_bounds_reachable vanilla bowlPlot _ rfl rfl (by decide)⟩

end GDViz

namespace GDViz

/-! ## Positive speed factors -/

/-- After `setAnimationSpeed` with any index both factors are at least 1. -/
theorem setAnimationSpeed_ge_one {σ : Type} (P : Plot σ) (index : Int) :
    1 ≤ (P.setAnimationSpeed index).animation_slowdown ∧
    1 ≤ (P.setAnimationSpeed index).animation_speedup := by
  unfold Plot.setAnimationSpeed
  split_ifs <;> simp

/-- No call makes a positive speed factor non-positive, and with a positive
slowdown no call divides by zero. -/
theorem apply_keeps_factors_positive {σ : Type} (ops : DescentOps σ) (c : Call) (P : Plot σ)
    (hs : 1 ≤ P.animation_slowdown) (hk : 1 ≤ P.animation_speedup) :
    c.apply ops P ≠ .error .divideByZero ∧
    ∀ Q, c.apply ops P = .ok Q → 1 ≤ Q.animation_slowdown ∧ 1 ≤ Q.animation_speedup := by
  cases c with
  | triggerAnimation =>
    refine ⟨fun h => ?_, fun Q hQ => ?_⟩
    · have := triggerAnimation_divideByZero ops P h
      omega
    · obtain ⟨h1, h2, -⟩ := triggerAnimation_frame ops P Q hQ
      omega
  | toggleAnimation =>
    refine ⟨by simp [Call.apply], fun Q hQ => ?_⟩
    simp only [Call.apply, Except.ok.injEq] at hQ
    subst hQ
    unfold Plot.toggleAnimation
    split_ifs <;> exact ⟨hs, hk⟩
  | setAnimationSpeed index =>
    refine ⟨by simp [Call.apply], fun Q hQ => ?_⟩
    simp only [Call.apply, Except.ok.injEq] at hQ
    subst hQ
    exact setAnimationSpeed_ge_one P index
  | restartAnimation =>
    refine ⟨by simp [Call.apply], fun Q hQ => ?_⟩
    simp only [Call.apply, Except.ok.injEq] at hQ
    subst hQ
    exact ⟨hs, hk⟩
  | restartFromNewPosition q =>
    refine ⟨fun h => ?_, fun Q hQ => ?_⟩
    · simp only [Call.apply, Plot.restartFromNewPosition] at h
      split_ifs at h
      split at h <;> simp at h
    · simp only [Call.apply, Plot.restartFromNewPosition] at hQ
      split_ifs at hQ
      · simp only [Except.ok.injEq] at hQ
        subst hQ
        exact ⟨hs, hk⟩
      · split at hQ
        · simp at hQ
        · simp only [Except.ok.injEq] at hQ
          subst hQ
          exact ⟨hs, hk⟩

/-- With positive speed factors no sequence of calls divides by zero, and the
factors stay positive. -/
theorem run_keeps_factors_positive {σ : Type} (ops : DescentOps σ) (cs : List Call)
    (P : Plot σ) (hs : 1 ≤ P.animation_slowdown) (hk : 1 ≤ P.animation_speedup) :
    run ops cs P ≠ .error .divideByZero ∧
    ∀ Q, run ops cs P = .ok Q → 1 ≤ Q.animation_slowdown ∧ 1 ≤ Q.animation_speedup := by
  induction cs generalizing P with
  | nil =>
    refine ⟨by simp [run], fun Q hQ => ?_⟩
    simp only [run, Except.ok.injEq] at hQ
    subst hQ
    exact ⟨hs, hk⟩
  | cons c cs ih =>
    obtain ⟨hne, hstep⟩ := apply_keeps_factors_positive ops c P hs hk
    cases hc : c.apply ops P with
    | error e =>
      refine ⟨fun h => ?_, fun Q hQ => ?_⟩
      · simp only [run, hc, Except.error.injEq] at h
        subst h
        exact hne hc
      · simp [run, hc] at hQ
    | ok R =>
      obtain ⟨h1, h2⟩ := hstep R hc
      rw [run_cons_ok ops c cs P R hc]
      exact ih R h1 h2

/-- C10: for every integer index `setAnimationSpeed` leaves both factors at
least 1, and equal to 1 for an index outside 0..4; consequently neither the
next fire nor any later call divides by zero, and in every state reached
afterwards the substep loop runs at least once, so that the marker of an
optimizer that is stepped is placed from the position returned by a step. -/
theorem setAnimationSpeed_factors_positive {σ : Type} (ops : DescentOps σ) (P : Plot σ)
    (index : Int) (cs : List Call) :
    1 ≤ (P.setAnimationSpeed index).animation_slowdown ∧
    1 ≤ (P.setAnimationSpeed index).animation_speedup ∧
    ((index < 0 ∨ 4 < index) →
      (P.setAnimationSpeed index).animation_slowdown = 1 ∧
      (P.setAnimationSpeed index).animation_speedup = 1) ∧
    (P.setAnimationSpeed index).triggerAnimation ops ≠ .error .divideByZero ∧
    run ops cs (P.setAnimationSpeed index) ≠ .error .divideByZero ∧
    ∀ Q, run ops cs (P.setAnimationSpeed index) = .ok Q →
      Q.animation_slowdown ≠ 0 ∧ 1 ≤ Q.animation_speedup.toNat ∧
      ∀ d : GradientDescent σ, ops.isConverged d.state = false →
        (tickDescent ops Q.animation_speedup d).ball = setBallPosition ops.f d.ball
          (ops.gradientStep ((stepState ops)^[Q.animation_speedup.toNat - 1] d.state)).2 := by
  obtain ⟨hs, hk⟩ := setAnimationSpeed_ge_one P index
  obtain ⟨hne, hall⟩ := run_keeps_factors_positive ops cs _ hs hk
  refine ⟨hs, hk, ?_, ?_, hne, ?_⟩
  · intro hout
    have h0 : index ≠ 0 := by omega
    have h1 : index ≠ 1 := by omega
    have h2 : index ≠ 2 := by omega
    have h3 : index ≠ 3 := by omega
    have h4 : index ≠ 4 := by omega
    simp [Plot.setAnimationSpeed, h0, h1, h2, h3, h4]
  · intro h
    have := triggerAnimation_divideByZero ops _ h
    omega
  · intro Q hQ
    obtain ⟨hQs, hQk⟩ := hall Q hQ
    refine ⟨by omega, by omega, fun d hd => ?_⟩
    simp only [tickDescent, hd, Bool.false_eq_true, if_false, setArrowGeometry]
    rw [substeps_of_pos ops _ hQk]

end GDViz
